import Mathlib

/-!
Verification development for the book_service core (src/main.go): the
dynamic filter composition of `searchBook`, the price-range extraction of
the `search` handler, the aggregation summarizing of `storeBook`, the
activity recorder `writeToRedis`, the activity reader in `activity`, and
the response/recording glue of the `book`, `store` and `search` handlers.
External collaborators (the document store and the key-value store) are
modelled at their interface boundary; errors are modelled by the context
strings the source wraps them with.
-/

namespace BookService

/-- Document entity `Book` (src/main.go lines 18-24); the publish date is
modelled as an integer timestamp. -/
structure Book where
  title : String
  author_name : String
  price : Int
  ebook_available : Bool
  publish_date : Int
deriving DecidableEq

/-- Price range `Range` (src/main.go lines 31-34). -/
structure Range where
  From : Int
  To : Int
deriving DecidableEq

/-- One predicate of the composed bool query: the source builds
`NewMatchQuery(field, text)` (lines 139, 142) and
`NewRangeQuery("price").From(f).To(t)` (line 145). -/
inductive Pred where
  | matchQ (field text : String)
  | rangeQ (field : String) (lo hi : Int)
deriving DecidableEq

/-- Conjunctive query `NewBoolQuery().Must(q...)` (src/main.go line 147). -/
structure BoolQuery where
  musts : List Pred
deriving DecidableEq

/-- Query composition of `searchBook` (src/main.go lines 136-147): start
from an empty clause list, append a title match when the title is
non-empty, an author match when the author is non-empty, and a price
range unless the range is the unset sentinel (-1, -1); wrap the list in
one bool `must` query. -/
def searchBookQuery (title authorName : String) (priceRange : Range) : BoolQuery :=
  let q : List Pred := []
  let q := if title ≠ "" then q ++ [Pred.matchQ "title" title] else q
  let q := if authorName ≠ "" then q ++ [Pred.matchQ "author_name" authorName] else q
  let q := if ¬(priceRange.From = -1 ∧ priceRange.To = -1)
           then q ++ [Pred.rangeQ "price" priceRange.From priceRange.To] else q
  ⟨q⟩

/-- Modelled from the spec: evaluation of one predicate by the external
document store (spec section 6). Full-text matching is analyzer dependent
and kept abstract as the oracle `tm`; the only range predicate the core
ever builds is on the integer price field, evaluated as an inclusive
interval (spec section 4.1). -/
def Pred.eval (tm : String → String → Book → Bool) : Pred → Book → Bool
  | Pred.matchQ f t, b => tm f t b
  | Pred.rangeQ _ lo hi, b => decide (lo ≤ b.price) && decide (b.price ≤ hi)

/-- Modelled from the spec: a bool `must` query matches a document iff
every clause matches it; with zero clauses it matches every document
(spec section 4.1: an empty AND is match-all). -/
def BoolQuery.eval (tm : String → String → Book → Bool) (q : BoolQuery) (b : Book) : Bool :=
  q.musts.all (fun p => p.eval tm b)

/-- Whether the composed query holds any range predicate (the only range
predicate the core builds is on the price field). -/
def hasPriceRangePred (q : BoolQuery) : Bool :=
  q.musts.any (fun p => match p with | Pred.rangeQ _ _ _ => true | _ => false)

/-- Splitting a character list at every occurrence of `sep`: the
semantics of Go `strings.Split` with a single-character separator. -/
def splitOnChar (sep : Char) : List Char → List (List Char)
  | [] => [[]]
  | c :: cs =>
    if c = sep then [] :: splitOnChar sep cs
    else
      match splitOnChar sep cs with
      | [] => [[c]]
      | h :: t => (c :: h) :: t

/-- Pieces of `strings.Split(s, "-")` (src/main.go line 348). -/
def splitDash (s : String) : List String :=
  (splitOnChar '-' s.data).map (fun l => ⟨l⟩)

/-- Decimal value of a digit string: `none` unless the list is non-empty
and all decimal digits (the digit part of Go `strconv.Atoi`). -/
def decDigits (l : List Char) : Option Nat :=
  if l ≠ [] ∧ l.all Char.isDigit
  then some (l.foldl (fun acc c => acc * 10 + (c.toNat - 48)) 0)
  else none

/-- Largest signed 64-bit integer. -/
def maxInt64 : Int := 9223372036854775807

/-- Signed decimal reading: an optional sign character followed by the
digits (the shape `strconv.Atoi` accepts). -/
def goAtoiSigned : List Char → Option Int
  | [] => none
  | c :: ds =>
    if c = '+' then (decDigits ds).map (fun n => (n : Int))
    else if c = '-' then (decDigits ds).map (fun n => -(n : Int))
    else (decDigits (c :: ds)).map (fun n => (n : Int))

/-- Go `strconv.Atoi` on a 64-bit platform: an optional sign followed by
at least one decimal digit; `none` on any other input and on a value
outside the signed 64-bit range (Atoi reports an error there, which the
caller treats as failure). -/
def goAtoi (s : String) : Option Int :=
  (goAtoiSigned s.data).bind (fun v => if -maxInt64 - 1 ≤ v ∧ v ≤ maxInt64 then some v else none)

/-- Conversion of the split pieces: with exactly two pieces both are
converted with Atoi, a conversion failure failing the request with the
wrap context of src/main.go lines 353/360; any other number of pieces is
normalized to the unset sentinel (-1, -1) (line 365). -/
def rangeOfParts : List String → Except String Range
  | [a, b] =>
    match goAtoi a with
    | none => Except.error "price range conversion failed"
    | some f =>
      match goAtoi b with
      | none => Except.error "price range conversion failed"
      | some t => Except.ok ⟨f, t⟩
  | _ => Except.ok ⟨-1, -1⟩

/-- Price-range extraction of the `search` handler (src/main.go lines
347-366): split the parameter on "-" and convert the pieces. -/
def parsePriceRange (s : String) : Except String Range :=
  rangeOfParts (splitDash s)

/-- Raw aggregation search result consumed by `storeBook`: the total hit
count and the optional value of the `distinctAuthors` cardinality
aggregation. The estimate is a rational standing for the store's
floating-point estimate. -/
structure ESAggs where
  totalHits : Int
  cardinality : Option ℚ

/-- Go `math.Round`: round to the nearest integer, ties away from zero. -/
def goRound (x : ℚ) : Int := if 0 ≤ x then ⌊x + 1/2⌋ else -⌊-x + 1/2⌋

/-- JSON rendering of `AggsRes` by `json.Marshal` under the field tags
"total books" and "distinct authors" (src/main.go lines 26-29). -/
def renderAggsRes (books authors : Int) : String :=
  "\x7b\"total books\":" ++ toString books ++ ",\"distinct authors\":" ++ toString authors ++ "\x7d"

/-- Summarizing step of `storeBook` once the store call result is at hand
(src/main.go lines 290-301): when the cardinality value is absent return
the empty string with no error; otherwise render the total hit count and
the estimate rounded with `math.Round`. The `json.Marshal` error branch
is unreachable for `AggsRes` and so has no counterpart here. -/
def storeBookCore (res : ESAggs) : String × Option String :=
  match res.cardinality with
  | none => ("", none)
  | some v => (renderAggsRes res.totalHits (goRound v), none)

/-- Function `storeBook` (src/main.go lines 287-302) as a function of the
outcome of the aggregation search call: the source never checks the
call's error (`err` from line 289 is first read only after
`searchResult.Aggregations` was dereferenced on line 290), so on a failed
call the nil result is dereferenced — a runtime panic, modelled `none`. -/
def storeBookRun (call : Except String ESAggs) : Option (String × Option String) :=
  match call with
  | Except.error _ => none
  | Except.ok res => some (storeBookCore res)

/-- Hits consumed by `searchBook`: the total count and the serialized
source of each returned hit. -/
structure ESHits where
  totalHits : Int
  hits : List String

/-- Result processing of `searchBook` (src/main.go lines 152-164): with
at least one hit the hit sources are rendered the way
`fmt.Sprintf` renders a string slice (space separated inside square
brackets); with no hits the empty string, with no error. -/
def searchBookCore (res : ESHits) : String × Option String :=
  if res.hits.length > 0
  then ("[" ++ String.intercalate " " res.hits ++ "]", none)
  else ("", none)

/-- Function `searchBook` (src/main.go lines 149-164) as a function of
the search call outcome: line 149 discards the call's error (blank
identifier) and dereferences `searchResult.Hits`, so a failed call is a
nil dereference — a runtime panic, modelled as `none`. -/
def searchBookRun (call : Except String ESHits) : Option (String × Option String) :=
  match call with
  | Except.error _ => none
  | Except.ok res => some (searchBookCore res)

/-- One user's ordered activity log: a Redis sorted set, a list of
(member, score) pairs with members unique within one key. -/
abbrev ZSet := List (String × ℚ)

/-- Membership of a member string in a sorted set. -/
def zmem (m : String) (s : ZSet) : Bool := s.any (fun p => p.1 = m)

/-- Modelled from the spec: the key-value store's ordered-log append
(spec section 6), realized by the source as the store's sorted-set add
`client.ZAdd` (src/main.go line 119): insert a new member with its score,
or, when the member is already present in the set, replace that member's
score in place — members stay unique within one key. -/
def zadd (s : ZSet) (score : ℚ) (member : String) : ZSet :=
  if zmem member s
  then s.map (fun p => if p.1 = member then (member, score) else p)
  else s ++ [(member, score)]

/-- Entry label written by `writeToRedis` (src/main.go line 116). -/
def activityValue (route method : String) : String :=
  "route=" ++ route ++ ", method=" ++ method

/-- Outcomes of the two fallible key-value store steps inside
`writeToRedis`: the connection attempt and the add call. -/
structure RedisFlags where
  connectOk : Bool
  zaddOk : Bool
deriving DecidableEq

/-- Wrap context of a Redis connection failure (src/main.go line 113). -/
def connectRedisErr : String := "cannot connect to Redis"

/-- Wrap context of a failed add call (src/main.go line 121). -/
def zaddErr : String := "cannot set key in Redis"

/-- Function `writeToRedis` (src/main.go lines 110-125), acting on the
acting user's sorted set: on a connection failure report the connection
error and leave the set unchanged; otherwise add the route/method label
with score `ns`, the clock reading `float64(time.Now().Nanosecond())` at
the moment of the call; report an add failure, else succeed. Returns the
new set and the error (`none` on success). -/
def writeToRedisModel (f : RedisFlags) (st : ZSet) (ns : ℚ) (route method : String) :
    ZSet × Option String :=
  if f.connectOk then
    if f.zaddOk then (zadd st ns (activityValue route method), none)
    else (st, some zaddErr)
  else (st, some connectRedisErr)

/-- Modelled from the spec: the order in which the key-value store's
top-k-by-score-descending read returns entries (spec section 6): higher
score first, entries of equal score in reverse lexicographic member
order. -/
def zOrder (a b : String × ℚ) : Prop := b.2 < a.2 ∨ (a.2 = b.2 ∧ b.1 ≤ a.1)

instance : DecidableRel zOrder := fun a b => by unfold zOrder; infer_instance

instance : IsTotal (String × ℚ) zOrder := by
  constructor
  intro a b
  rcases lt_trichotomy a.2 b.2 with h | h | h
  · exact Or.inr (Or.inl h)
  · rcases le_total a.1 b.1 with h1 | h1
    · exact Or.inr (Or.inr ⟨h.symm, h1⟩)
    · exact Or.inl (Or.inr ⟨h, h1⟩)
  · exact Or.inl (Or.inl h)

instance : IsTrans (String × ℚ) zOrder := by
  constructor
  intro a b c hab hbc
  rcases hab with h1 | ⟨h1, h1m⟩
  · rcases hbc with h2 | ⟨h2, _⟩
    · exact Or.inl (h2.trans h1)
    · exact Or.inl (h2 ▸ h1)
  · rcases hbc with h2 | ⟨h2, h2m⟩
    · exact Or.inl (h1 ▸ h2)
    · exact Or.inr ⟨h1.trans h2, h2m.trans h1m⟩

/-- The reader's query `ZRevRangeWithScores(userId, 0, 2)`
(src/main.go line 189): the user's set ordered by descending score,
cut to the entries at rank 0 through 2 — at most three. -/
def zrevrangeTop3 (s : ZSet) : List (String × ℚ) :=
  (List.insertionSort zOrder s).take 3

/-- Wrap context of a failed read call (src/main.go line 191). -/
def activityReadErr : String := "cannot get key from Redis"

/-- The `activity` handler (src/main.go lines 176-207) as the list of
strings written to the response: a connection failure writes its error;
a GET with an empty user id writes nothing; a failed read writes its
error; otherwise each of the top-three entries' members is written on
its own line; any other method writes the unsupported-request error. -/
def activityHandler (connectOk : Bool) (method userId : String) (st : ZSet) (readOk : Bool) :
    List String :=
  if connectOk = false then [connectRedisErr]
  else if method = "GET" then
    if userId = "" then []
    else if readOk = false then [activityReadErr]
    else (zrevrangeTop3 st).map (fun p => p.1 ++ "\n")
  else ["Unsupported request for /activity " ++ method]

/-- Outcome of one handler run: the successive strings written to the
response, whether an activity append was attempted, and the acting
user's log afterwards. -/
structure HandlerRun where
  writes : List String
  appended : Bool
  log : ZSet
deriving DecidableEq

/-- Error written when the document-store connection fails; the wrap on
line 218/308/338 discards its result, so the error printed is the one
already wrapped inside `connectElasticSearch` (src/main.go line 66). -/
def esConnErr : String := "cannot connect to elastic search"

/-- Methods the `/book` route switch dispatches (src/main.go lines 260-272). -/
def bookSupported (m : String) : Bool :=
  m = "GET" || m = "DELETE" || m = "POST" || m = "PUT"

/-- The `book` handler (src/main.go lines 209-285): a document-store
connection failure or a parameter-conversion failure (`paramErr`,
lines 229-257) ends the request with that error alone; an unsupported
method or a failed catalog call writes the error alone; on success the
result is written first, and only then, when the user id is non-empty,
one activity append is attempted, whose error, if any, is written after
the result. -/
def bookHandler (esOk : Bool) (paramErr : Option String) (method userId : String)
    (primaryCall : Except String String) (st : ZSet) (f : RedisFlags) (ns : ℚ) : HandlerRun :=
  if esOk = false then ⟨[esConnErr], false, st⟩
  else match paramErr with
  | some e => ⟨[e], false, st⟩
  | none =>
    let primary : Except String String :=
      if bookSupported method then primaryCall
      else Except.error ("Unsupported request for /book " ++ method)
    match primary with
    | Except.error e => ⟨[e], false, st⟩
    | Except.ok result =>
      if userId = "" then ⟨[result], false, st⟩
      else
        let wr := writeToRedisModel f st ns "book" method
        match wr.2 with
        | some e => ⟨[result, e], true, wr.1⟩
        | none => ⟨[result], true, wr.1⟩

/-- Lifting of the (result, error) pair an inner operation returns into
the handler's success/error split (`result, err = ...`). -/
def liftResult (p : String × Option String) : Except String String :=
  match p.2 with
  | some e => Except.error e
  | none => Except.ok p.1

/-- The `store` handler (src/main.go lines 303-332): a connection failure
ends the request; GET runs `storeBook` (a panic inside it is `none`); an
unsupported method or a failed operation writes the error alone; on
success, when the user id is non-empty, one activity append is attempted
and its error, if any, is written before the result. -/
def storeHandler (esOk : Bool) (method userId : String) (aggCall : Except String ESAggs)
    (st : ZSet) (f : RedisFlags) (ns : ℚ) : Option HandlerRun :=
  if esOk = false then some ⟨[esConnErr], false, st⟩
  else
    let primary : Option (Except String String) :=
      if method = "GET" then (storeBookRun aggCall).map liftResult
      else some (Except.error ("Unsupported request for /store " ++ method))
    match primary with
    | none => none
    | some (Except.error e) => some ⟨[e], false, st⟩
    | some (Except.ok result) =>
      if userId = "" then some ⟨[result], false, st⟩
      else
        let wr := writeToRedisModel f st ns "store" method
        match wr.2 with
        | some e => some ⟨[e, result], true, wr.1⟩
        | none => some ⟨[result], true, wr.1⟩

/-- The `search` handler (src/main.go lines 333-387): a connection
failure ends the request; the price range is parsed before the method
switch and a conversion failure ends the request with that error; GET
runs `searchBook` (a panic inside it is `none`); an unsupported method
or a failed operation writes the error alone; on success, when the user
id is non-empty, one activity append is attempted and its error, if any,
is written before the result. -/
def searchHandler (esOk : Bool) (method priceRangeStr userId : String)
    (searchCall : Except String ESHits) (st : ZSet) (f : RedisFlags) (ns : ℚ) :
    Option HandlerRun :=
  if esOk = false then some ⟨[esConnErr], false, st⟩
  else match parsePriceRange priceRangeStr with
  | Except.error e => some ⟨[e], false, st⟩
  | Except.ok _pr =>
    let primary : Option (Except String String) :=
      if method = "GET" then (searchBookRun searchCall).map liftResult
      else some (Except.error ("Unsupported request for /search " ++ method))
    match primary with
    | none => none
    | some (Except.error e) => some ⟨[e], false, st⟩
    | some (Except.ok result) =>
      if userId = "" then some ⟨[result], false, st⟩
      else
        let wr := writeToRedisModel f st ns "search" method
        match wr.2 with
        | some e => some ⟨[e, result], true, wr.1⟩
        | none => some ⟨[result], true, wr.1⟩

/-! Helper lemmas -/

theorem splitOnChar_ne_nil (sep : Char) (l : List Char) : splitOnChar sep l ≠ [] := by
  cases l with
  | nil => simp [splitOnChar]
  | cons c cs =>
    unfold splitOnChar
    by_cases hc : c = sep
    · simp [hc]
    · rw [if_neg hc]
      cases hrec : splitOnChar sep cs <;> simp

theorem sep_not_mem_splitOnChar (sep : Char) :
    ∀ (l part : List Char), part ∈ splitOnChar sep l → sep ∉ part := by
  intro l
  induction l with
  | nil =>
    intro part hp
    simp [splitOnChar] at hp
    subst hp
    simp
  | cons c cs ih =>
    intro part hp
    unfold splitOnChar at hp
    by_cases hc : c = sep
    · rw [if_pos hc] at hp
      rcases List.mem_cons.mp hp with hp | hp
      · subst hp; simp
      · exact ih part hp
    · rw [if_neg hc] at hp
      cases hrec : splitOnChar sep cs with
      | nil => exact absurd hrec (splitOnChar_ne_nil sep cs)
      | cons h t =>
        rw [hrec] at hp
        have hp2 : part ∈ (c :: h) :: t := hp
        rcases List.mem_cons.mp hp2 with hp3 | hp3
        · subst hp3
          intro hmem
          rcases List.mem_cons.mp hmem with hmem | hmem
          · exact hc hmem.symm
          · exact ih h (hrec ▸ List.mem_cons_self h t) hmem
        · exact ih part (hrec ▸ List.mem_cons_of_mem h hp3)

theorem goAtoiSigned_nonneg (l : List Char) (hm : '-' ∉ l) (v : Int)
    (h : goAtoiSigned l = some v) : 0 ≤ v := by
  cases l with
  | nil => simp [goAtoiSigned] at h
  | cons c ds =>
    have h0 : (if c = '+' then (decDigits ds).map (fun n => (n : Int))
        else if c = '-' then (decDigits ds).map (fun n => -(n : Int))
        else (decDigits (c :: ds)).map (fun n => (n : Int))) = some v := h
    by_cases hplus : c = '+'
    · rw [if_pos hplus] at h0
      cases hdec : decDigits ds with
      | none => rw [hdec] at h0; simp at h0
      | some m => rw [hdec] at h0; simp at h0; omega
    · have hminus : ¬ c = '-' := fun hcm => hm (hcm ▸ List.mem_cons_self c ds)
      rw [if_neg hplus, if_neg hminus] at h0
      cases hdec : decDigits (c :: ds) with
      | none => rw [hdec] at h0; simp at h0
      | some m => rw [hdec] at h0; simp at h0; omega

theorem goAtoi_nonneg_of_no_minus (s : String) (hm : '-' ∉ s.data) (n : Int)
    (h : goAtoi s = some n) : 0 ≤ n := by
  unfold goAtoi at h
  cases hs : goAtoiSigned s.data with
  | none => rw [hs] at h; simp at h
  | some v =>
    rw [hs] at h
    have h2 : (if -maxInt64 - 1 ≤ v ∧ v ≤ maxInt64 then some v else none) = some n := h
    split at h2
    · cases h2; exact goAtoiSigned_nonneg s.data hm _ hs
    · simp at h2

theorem parsePriceRange_of_len_ne_two (s : String) (h : (splitDash s).length ≠ 2) :
    parsePriceRange s = Except.ok ⟨-1, -1⟩ := by
  unfold parsePriceRange rangeOfParts
  cases hl : splitDash s with
  | nil => rfl
  | cons a l =>
    cases l with
    | nil => rfl
    | cons b l2 =>
      cases l2 with
      | nil => exact absurd (by rw [hl]; rfl) h
      | cons c l3 => rfl

theorem parsePriceRange_ok_nonneg (s : String) (pr : Range)
    (hlen : (splitDash s).length = 2) (hok : parsePriceRange s = Except.ok pr) :
    0 ≤ pr.From ∧ 0 ≤ pr.To := by
  rcases List.length_eq_two.mp hlen with ⟨a, b, hab⟩
  have hnominus : ∀ x ∈ splitDash s, '-' ∉ x.data := by
    intro x hx
    unfold splitDash at hx
    rcases List.mem_map.mp hx with ⟨part, hpart, hxeq⟩
    have hdx : x.data = part := by rw [← hxeq]
    rw [hdx]
    exact sep_not_mem_splitOnChar '-' s.data part hpart
  unfold parsePriceRange at hok
  rw [hab] at hok
  have hok2 : (match goAtoi a with
      | none => (Except.error "price range conversion failed" : Except String Range)
      | some f =>
        match goAtoi b with
        | none => Except.error "price range conversion failed"
        | some t => Except.ok ⟨f, t⟩) = Except.ok pr := hok
  cases hga : goAtoi a with
  | none =>
    rw [hga] at hok2
    have hok3 : (Except.error "price range conversion failed" : Except String Range)
        = Except.ok pr := hok2
    cases hok3
  | some f =>
    rw [hga] at hok2
    have hok3 : (match goAtoi b with
        | none => (Except.error "price range conversion failed" : Except String Range)
        | some t => Except.ok ⟨f, t⟩) = Except.ok pr := hok2
    cases hgb : goAtoi b with
    | none =>
      rw [hgb] at hok3
      have hok4 : (Except.error "price range conversion failed" : Except String Range)
          = Except.ok pr := hok3
      cases hok4
    | some t =>
      rw [hgb] at hok3
      have hok4 : Except.ok (⟨f, t⟩ : Range) = Except.ok pr := hok3
      cases hok4
      constructor
      · exact goAtoi_nonneg_of_no_minus a (hnominus a (hab ▸ List.mem_cons_self a [b])) f hga
      · exact goAtoi_nonneg_of_no_minus b
          (hnominus b (hab ▸ List.mem_cons_of_mem a (List.mem_cons_self b []))) t hgb

/-! Claim theorems C1, C2 -/

/-- C1: for every SearchCriteria with zero fields set (empty title, empty
author, unset price range), the query `searchBook` composes matches every
document in the collection, for every text-match behavior of the store:
the empty conjunction is match-all, not match-nothing. -/
theorem C1_zero_criteria_matches_all (tm : String → String → Book → Bool) (b : Book) :
    (searchBookQuery "" "" ⟨-1, -1⟩).eval tm b = true := by
  have h : searchBookQuery "" "" ⟨-1, -1⟩ = ⟨[]⟩ := by decide
  rw [h]
  rfl

/-- C2 counterexample: the claim says any price_range input that does not
split into exactly two integer parts is normalized to the unset sentinel;
but the input "a-b" splits into two non-integer parts and the `search`
handler rejects the request with a conversion error instead of
normalizing it. -/
theorem C2_counterexample :
    parsePriceRange "a-b" = Except.error "price range conversion failed" ∧
    parsePriceRange "a-b" ≠ Except.ok ⟨-1, -1⟩ := by
  have h : parsePriceRange "a-b" = Except.error "price range conversion failed" := rfl
  refine ⟨h, ?_⟩
  rw [h]
  intro h2
  cases h2

/-- C2 amended: with the sentinel range (-1, -1) the composed query holds
no price range predicate, for every title and author and hence for every
collection contents; a price_range input that does not split on "-" into
exactly two parts is normalized to the unset sentinel, while a two-part
input with a non-integer part fails the request with a conversion error;
and a range parsed from a two-part input always has non-negative bounds,
so it is never the sentinel — the sentinel cannot collide with a
legitimate parsed range. -/
theorem C2_sentinel_never_filtered (t a s : String) (pr : Range) :
    hasPriceRangePred (searchBookQuery t a ⟨-1, -1⟩) = false ∧
    ((splitDash s).length ≠ 2 → parsePriceRange s = Except.ok ⟨-1, -1⟩) ∧
    ((splitDash s).length = 2 → parsePriceRange s = Except.ok pr →
      ¬(pr.From = -1 ∧ pr.To = -1)) := by
  refine ⟨?_, parsePriceRange_of_len_ne_two s, ?_⟩
  · by_cases ht : t = "" <;> by_cases ha : a = "" <;>
      simp [searchBookQuery, hasPriceRangePred, ht, ha]
  · intro hlen hok hsent
    have := (parsePriceRange_ok_nonneg s pr hlen hok).1
    omega

/-- Witness for C2's amended theorem at concrete inputs: the three-part
input "10-20-30" is normalized to the sentinel, and the two-part input
"10-20" parses to a non-sentinel range. -/
theorem C2_sentinel_never_filtered_witness :
    hasPriceRangePred (searchBookQuery "dune" "herbert" ⟨-1, -1⟩) = false ∧
    parsePriceRange "10-20-30" = Except.ok ⟨-1, -1⟩ ∧
    ¬((10 : Int) = -1 ∧ (20 : Int) = -1) := by
  refine ⟨(C2_sentinel_never_filtered "dune" "herbert" "10-20-30" ⟨10, 20⟩).1, ?_, ?_⟩
  · exact (C2_sentinel_never_filtered "dune" "herbert" "10-20-30" ⟨10, 20⟩).2.1 (by decide)
  · exact (C2_sentinel_never_filtered "dune" "herbert" "10-20" ⟨10, 20⟩).2.2 (by decide) (by rfl)

/-! Aggregation summarizer: C3, C4 -/

theorem renderAggsRes_ne_empty (b a : Int) : renderAggsRes b a ≠ "" := by
  intro h
  have hl : (renderAggsRes b a).length = 0 := by rw [h]; rfl
  unfold renderAggsRes at hl
  rw [String.length_append, String.length_append, String.length_append,
    String.length_append] at hl
  have h1 : ("\x7b\"total books\":" : String).length = 15 := rfl
  rw [h1] at hl
  omega

/-- C3: when the author-field cardinality estimate is present (a
non-negative quantity, being an estimate of a count of distinct values),
the summary `storeBook` renders carries a distinct-author count that is a
non-negative integer and is the estimate rounded to the nearest integer
with ties away from zero: the unique integer `a` with
v - 1/2 < a ≤ v + 1/2. -/
theorem C3_authors_rounded_estimate (res : ESAggs) (v : ℚ)
    (hv : res.cardinality = some v) (hnn : 0 ≤ v) :
    ∃ a : ℤ, storeBookCore res = (renderAggsRes res.totalHits a, none) ∧
      0 ≤ a ∧ v - 1/2 < (a : ℚ) ∧ (a : ℚ) ≤ v + 1/2 := by
  refine ⟨goRound v, by simp [storeBookCore, hv], ?_, ?_, ?_⟩
  · unfold goRound
    rw [if_pos hnn]
    exact Int.floor_nonneg.mpr (by linarith)
  · unfold goRound
    rw [if_pos hnn]
    have := Int.lt_floor_add_one (v + 1/2)
    push_cast at this ⊢
    linarith
  · unfold goRound
    rw [if_pos hnn]
    exact_mod_cast Int.floor_le (v + 1/2)

/-- Witness for C3 at a concrete estimate: 3.5 rounds away from zero
to 4. -/
theorem C3_authors_rounded_estimate_witness :
    ∃ a : ℤ, storeBookCore ⟨10, some (7/2)⟩ = (renderAggsRes 10 a, none) ∧
      0 ≤ a ∧ (7 : ℚ)/2 - 1/2 < (a : ℚ) ∧ (a : ℚ) ≤ (7 : ℚ)/2 + 1/2 :=
  C3_authors_rounded_estimate ⟨10, some (7/2)⟩ (7/2) rfl (by norm_num)

/-- C4: the statistics operation yields the distinguished empty result
exactly when the cardinality value is absent, and a rendered summary is
never the empty string — in particular the zero-filled summary is
distinct from the no-summary result, so callers can tell no-data from
zero documents. -/
theorem C4_no_summary_iff_absent (res : ESAggs) (b a : Int) :
    (storeBookCore res = ("", none) ↔ res.cardinality = none) ∧
    renderAggsRes b a ≠ "" := by
  refine ⟨⟨?_, ?_⟩, renderAggsRes_ne_empty b a⟩
  · intro h
    cases hc : res.cardinality with
    | none => rfl
    | some v =>
      have hr : storeBookCore res = (renderAggsRes res.totalHits (goRound v), none) := by
        simp [storeBookCore, hc]
      rw [hr] at h
      have hfst : renderAggsRes res.totalHits (goRound v) = "" := congrArg Prod.fst h
      exact absurd hfst (renderAggsRes_ne_empty _ _)
  · intro h
    simp [storeBookCore, h]

/-- Witness for C4 at concrete inputs: an absent estimate yields the
empty result and the zero-filled summary is non-empty. -/
theorem C4_no_summary_iff_absent_witness :
    (storeBookCore ⟨0, none⟩ = ("", none) ↔ (⟨0, none⟩ : ESAggs).cardinality = none) ∧
    renderAggsRes 0 0 ≠ "" :=
  C4_no_summary_iff_absent ⟨0, none⟩ 0 0

/-! Error propagation of the store calls: C8, C9 -/

/-- C8: the claim says a failure of the document-store search call in
`searchBook` and of the aggregation call in `storeBook` is returned to
the caller as an error; evaluated at a failed call, both functions
instead dereference the absent result without ever returning the error —
the failure is dropped and the request dies in a runtime panic (`none`),
not in an error result. -/
theorem C8_store_failures_not_surfaced :
    searchBookRun (Except.error "connection refused") = none ∧
    storeBookRun (Except.error "connection refused") = none :=
  ⟨rfl, rfl⟩

/-- C9: the access to the store result's fields in `searchBook` and
`storeBook` has a value exactly when the store call succeeded; when the
call fails the access has no value. -/
theorem C9_access_defined_iff_call_ok (c₁ : Except String ESHits)
    (c₂ : Except String ESAggs) :
    ((searchBookRun c₁).isSome ↔ ∃ h, c₁ = Except.ok h) ∧
    ((storeBookRun c₂).isSome ↔ ∃ a, c₂ = Except.ok a) := by
  constructor
  · cases c₁ with
    | error e => simp [searchBookRun]
    | ok h => simp [searchBookRun]
  · cases c₂ with
    | error e => simp [storeBookRun]
    | ok a => simp [storeBookRun]

/-- Witness for C9 at concrete calls: a successful call makes the access
defined. -/
theorem C9_access_defined_iff_call_ok_witness :
    ((searchBookRun (Except.ok ⟨0, []⟩)).isSome ↔
      ∃ h, (Except.ok ⟨0, []⟩ : Except String ESHits) = Except.ok h) ∧
    ((storeBookRun (Except.ok ⟨0, none⟩)).isSome ↔
      ∃ a, (Except.ok ⟨0, none⟩ : Except String ESAggs) = Except.ok a) :=
  C9_access_defined_iff_call_ok (Except.ok ⟨0, []⟩) (Except.ok ⟨0, none⟩)

/-! Activity reader: C5 -/

theorem zOrder_score_le (a b : String × ℚ) (h : zOrder a b) : b.2 ≤ a.2 := by
  rcases h with h | ⟨h, _⟩
  · exact le_of_lt h
  · exact le_of_eq h.symm

/-- C5: the activity reader returns at most three entries, ordered from
highest score to lowest; with fewer than three entries in the log it
returns all of them (still in descending-score order); and on an empty
log — the log of an unknown user id in particular — the handler writes an
empty sequence rather than an error. -/
theorem C5_reader_at_most_three_desc (st : ZSet) (uid : String) (huid : uid ≠ "") :
    (zrevrangeTop3 st).length ≤ 3 ∧
    List.Sorted (fun x y : String × ℚ => y.2 ≤ x.2) (zrevrangeTop3 st) ∧
    (st.length < 3 → (zrevrangeTop3 st).Perm st) ∧
    activityHandler true "GET" uid [] true = [] := by
  refine ⟨?_, ?_, ?_, ?_⟩
  · rw [zrevrangeTop3, List.length_take]
    exact min_le_left _ _
  · exact ((List.sorted_insertionSort zOrder st).imp
      (fun h => zOrder_score_le _ _ h)).sublist (List.take_sublist 3 _)
  · intro hlen
    have hlen2 : (List.insertionSort zOrder st).length ≤ 3 := by
      rw [(List.perm_insertionSort zOrder st).length_eq]
      omega
    rw [zrevrangeTop3, List.take_of_length_le hlen2]
    exact List.perm_insertionSort zOrder st
  · simp [activityHandler, huid, zrevrangeTop3]

/-- Witness for C5 at a two-entry log and the user id "u1". -/
theorem C5_reader_at_most_three_desc_witness :
    (zrevrangeTop3 [("a", 1), ("b", 2)]).length ≤ 3 ∧
    (zrevrangeTop3 [("a", 1), ("b", 2)]).Perm [("a", 1), ("b", 2)] ∧
    activityHandler true "GET" "u1" [] true = [] := by
  have h := C5_reader_at_most_three_desc [("a", 1), ("b", 2)] "u1" (by decide)
  exact ⟨h.1, h.2.2.1 (by decide), h.2.2.2⟩

/-! Activity recorder: C6 -/

/-- C6: the claim says a successful append grows the user's log by
exactly one entry and never overwrites or deduplicates an existing
entry. Evaluated on a log that already holds the label
"route=book, method=GET" with score 5, a successful append of the same
label at clock reading 7 leaves the log at one entry and overwrites the
stored score: the sorted-set add the recorder uses deduplicates by label
and updates the existing entry in place. -/
theorem C6_successful_append_dedupes :
    writeToRedisModel ⟨true, true⟩ [("route=book, method=GET", 5)] 7 "book" "GET"
      = ([("route=book, method=GET", 7)], none) ∧
    ¬((([("route=book, method=GET", 7)] : ZSet)).length
        = (([("route=book, method=GET", 5)] : ZSet)).length + 1) := by
  refine ⟨?_, by decide⟩
  rfl

/-! Handler glue: C7, C10 -/

theorem storeBookCore_snd (res : ESAggs) : (storeBookCore res).2 = none := by
  rcases res with ⟨th, c⟩
  cases c <;> rfl

theorem searchBookCore_snd (res : ESHits) : (searchBookCore res).2 = none := by
  unfold searchBookCore
  split <;> rfl

theorem liftResult_eq_ok (p : String × Option String) (h : p.2 = none) :
    liftResult p = Except.ok p.1 := by
  rcases p with ⟨x, o⟩
  cases o with
  | none => rfl
  | some e => simp at h

/-- C7: with a successful primary operation, a non-empty user id and an
unreachable key-value store, each of the three handlers still delivers
the primary payload and reports the connection-failure error alongside
it — the book handler writes the result and then the error, the store
and search handlers write the error and then the result; in none of them
is the payload replaced or the primary outcome undone. -/
theorem C7_primary_survives_recording_failure (st : ZSet) (ns : ℚ) (userId r : String)
    (hu : userId ≠ "") (method : String) (hbm : bookSupported method = true)
    (aggs : ESAggs) (hits : ESHits) :
    bookHandler true none method userId (Except.ok r) st ⟨false, true⟩ ns
      = ⟨[r, connectRedisErr], true, st⟩ ∧
    storeHandler true "GET" userId (Except.ok aggs) st ⟨false, true⟩ ns
      = some ⟨[connectRedisErr, (storeBookCore aggs).1], true, st⟩ ∧
    searchHandler true "GET" "" userId (Except.ok hits) st ⟨false, true⟩ ns
      = some ⟨[connectRedisErr, (searchBookCore hits).1], true, st⟩ := by
  have hst : liftResult (storeBookCore aggs) = Except.ok ((storeBookCore aggs).1) :=
    liftResult_eq_ok _ (storeBookCore_snd aggs)
  have hse : liftResult (searchBookCore hits) = Except.ok ((searchBookCore hits).1) :=
    liftResult_eq_ok _ (searchBookCore_snd hits)
  have hpp : parsePriceRange "" = Except.ok ⟨-1, -1⟩ := rfl
  refine ⟨?_, ?_, ?_⟩
  · simp [bookHandler, hbm, hu, writeToRedisModel]
  · simp [storeHandler, storeBookRun, hst, hu, writeToRedisModel]
  · simp [searchHandler, searchBookRun, hse, hpp, hu, writeToRedisModel]

/-- Witness for C7 at concrete inputs. -/
theorem C7_primary_survives_recording_failure_witness :
    bookHandler true none "PUT" "u1" (Except.ok "ok") [] ⟨false, true⟩ 0
      = ⟨["ok", connectRedisErr], true, []⟩ ∧
    storeHandler true "GET" "u1" (Except.ok ⟨0, none⟩) [] ⟨false, true⟩ 0
      = some ⟨[connectRedisErr, (storeBookCore ⟨0, none⟩).1], true, []⟩ ∧
    searchHandler true "GET" "" "u1" (Except.ok ⟨0, []⟩) [] ⟨false, true⟩ 0
      = some ⟨[connectRedisErr, (searchBookCore ⟨0, []⟩).1], true, []⟩ :=
  C7_primary_survives_recording_failure [] 0 "u1" "ok" (by decide) "PUT" (by decide)
    ⟨0, none⟩ ⟨0, []⟩

/-- C10: an activity append is attempted only for a request whose primary
operation completed without error and which carried a non-empty user id:
in every run of the book, store or search handler that records an
append, the document-store connection was up, the parameters parsed, the
method was one the route supports, the dispatched operation succeeded,
and the user id was non-empty. -/
theorem C10_append_only_after_success
    (esOk : Bool) (pe : Option String) (method userId priceStr : String)
    (call : Except String String) (aggCall : Except String ESAggs)
    (searchCall : Except String ESHits) (st : ZSet) (f : RedisFlags) (ns : ℚ) :
    ((bookHandler esOk pe method userId call st f ns).appended = true →
      esOk = true ∧ pe = none ∧ bookSupported method = true ∧
      (∃ r, call = Except.ok r) ∧ userId ≠ "") ∧
    (∀ run, storeHandler esOk method userId aggCall st f ns = some run →
      run.appended = true →
      esOk = true ∧ method = "GET" ∧ (∃ a, aggCall = Except.ok a) ∧ userId ≠ "") ∧
    (∀ run, searchHandler esOk method priceStr userId searchCall st f ns = some run →
      run.appended = true →
      esOk = true ∧ method = "GET" ∧ (∃ h, searchCall = Except.ok h) ∧
      (∃ pr, parsePriceRange priceStr = Except.ok pr) ∧ userId ≠ "") := by
  refine ⟨?_, ?_, ?_⟩
  · intro h
    cases esOk with
    | false => simp [bookHandler] at h
    | true =>
      cases pe with
      | some e => simp [bookHandler] at h
      | none =>
        by_cases hs : bookSupported method = true
        · cases call with
          | error e => simp [bookHandler, hs] at h
          | ok r =>
            by_cases huid : userId = ""
            · simp [bookHandler, hs, huid] at h
            · exact ⟨rfl, rfl, hs, ⟨r, rfl⟩, huid⟩
        · simp [bookHandler, hs] at h
  · intro run hrun happ
    cases esOk with
    | false =>
      simp [storeHandler] at hrun
      rw [← hrun] at happ
      simp at happ
    | true =>
      by_cases hm : method = "GET"
      · cases aggCall with
        | error e => simp [storeHandler, hm, storeBookRun] at hrun
        | ok a =>
          by_cases huid : userId = ""
          · have hl : liftResult (storeBookCore a) = Except.ok ((storeBookCore a).1) :=
              liftResult_eq_ok _ (storeBookCore_snd a)
            simp [storeHandler, hm, storeBookRun, hl, huid] at hrun
            rw [← hrun] at happ
            simp at happ
          · exact ⟨rfl, hm, ⟨a, rfl⟩, huid⟩
      · simp [storeHandler, hm] at hrun
        rw [← hrun] at happ
        simp at happ
  · intro run hrun happ
    cases esOk with
    | false =>
      simp [searchHandler] at hrun
      rw [← hrun] at happ
      simp at happ
    | true =>
      cases hp : parsePriceRange priceStr with
      | error e =>
        simp [searchHandler, hp] at hrun
        rw [← hrun] at happ
        simp at happ
      | ok pr =>
        by_cases hm : method = "GET"
        · cases searchCall with
          | error e => simp [searchHandler, hp, hm, searchBookRun] at hrun
          | ok hits =>
            by_cases huid : userId = ""
            · have hl : liftResult (searchBookCore hits)
                  = Except.ok ((searchBookCore hits).1) :=
                liftResult_eq_ok _ (searchBookCore_snd hits)
              simp [searchHandler, hp, hm, searchBookRun, hl, huid] at hrun
              rw [← hrun] at happ
              simp at happ
            · exact ⟨rfl, hm, ⟨hits, rfl⟩, ⟨pr, rfl⟩, huid⟩
        · simp [searchHandler, hp, hm] at hrun
          rw [← hrun] at happ
          simp at happ

/-- Witness for C10: a concrete successful book run with a non-empty
user id records an append, and the theorem then yields its
preconditions. -/
theorem C10_append_only_after_success_witness :
    true = true ∧ (none : Option String) = none ∧ bookSupported "GET" = true ∧
    (∃ r, (Except.ok "res" : Except String String) = Except.ok r) ∧
    ("u1" : String) ≠ "" :=
  (C10_append_only_after_success true none "GET" "u1" "" (Except.ok "res")
    (Except.ok ⟨0, none⟩) (Except.ok ⟨0, []⟩) [] ⟨true, true⟩ 0).1 (by rfl)

end BookService
